import Mathlib

/-!
Verification of the distributed FTCS heat solver in `PS2p2/heat.c`.

The embedding is shallow and executable:

* `float` values are modelled as exact rationals (`ℚ`); every claim settled
  here concerns either pure data movement (exact for any value representation)
  or algebraic identities of the stencil expression.
* The flat C arrays (`local_temp[2]`, `local_material`, `temperature`,
  `material`, `displs`, `sendcounts`) are modelled as total functions from the
  linear index type `ℤ`; `calloc` is the constant-zero function.
* Every loop that stores into an array is modelled as a `List.foldl` of
  pointwise updates (`updSeq`) over exactly the index list the C loop visits,
  in the same order.
* MPI is modelled by the semantics the spec assigns to the transport:
  a send/receive pair between live neighbours delivers exactly the bytes of
  the send descriptor into the receive descriptor, and a send or receive
  addressed to the "no neighbour" sentinel (`MPI_PROC_NULL`, produced by
  `MPI_Cart_shift` at a non-periodic boundary) is a no-op.  Since receives
  only ever write the `step % 2` buffer and sends only ever read the
  `(step+1) % 2` buffer, the sequential interleaving of the per-worker
  send/receive programs is deterministic and `border_exchange` is a function
  of the pre-exchange mesh state.
* `MPI_Type_vector(count, blocklen, stride)` describes the index set
  `{ base + i*stride + j | i < count, j < blocklen }`, which is spelled out
  at each use below exactly as committed in `commit_vector_types`.

The mesh of workers is indexed by cartesian coordinates `(x, y) : ℤ × ℤ`;
`MPI_Cart_shift(cart, 1, 1, &north, &south)` makes `north = (x, y-1)` and
`south = (x, y+1)`, and `MPI_Cart_shift(cart, 0, 1, &west, &east)` makes
`west = (x-1, y)` and `east = (x+1, y)`.
-/

namespace Heat

/-- Border thickness, `BORDER` in the source. -/
def BORDER : ℤ := 1

/-- The compile-time configuration of a run: `GRID_SIZE` and the cartesian
mesh `dims` chosen by `MPI_Dims_create`. -/
structure Config where
  grid0 : ℕ
  grid1 : ℕ
  dims0 : ℕ
  dims1 : ℕ

/-- Source: `local_grid_size[0] = GRID_SIZE[0] / dims[0]` (heat.c:250). -/
def lgs0 (c : Config) : ℕ := c.grid0 / c.dims0

/-- Source: `local_grid_size[1] = GRID_SIZE[1] / dims[1]` (heat.c:251). -/
def lgs1 (c : Config) : ℕ := c.grid1 / c.dims1

/-- The run configurations the program supports: a non-empty mesh that
divides the grid evenly (the unchecked precondition of the spec). -/
def Config.valid (c : Config) : Prop :=
  0 < c.dims0 ∧ 0 < c.dims1 ∧ c.dims0 ∣ c.grid0 ∧ c.dims1 ∣ c.grid1 ∧
    0 < c.grid0 ∧ 0 < c.grid1

/-- Index into the global temperature array (heat.c:117). -/
def ti (c : Config) (x y : ℤ) : ℤ := y * (c.grid0 : ℤ) + x

/-- Index into the global material array (heat.c:122). -/
def mi (c : Config) (x y : ℤ) : ℤ :=
  (y + (BORDER - 1)) * ((c.grid0 : ℤ) + 2 * (BORDER - 1)) + x + (BORDER - 1)

/-- Index into the local material array (heat.c:127). -/
def lmi (c : Config) (x y : ℤ) : ℤ :=
  (y + (BORDER - 1)) * ((lgs0 c : ℤ) + 2 * (BORDER - 1)) + x + (BORDER - 1)

/-- Index into a local temperature buffer, ghost border included
(heat.c:132). -/
def lti (c : Config) (x y : ℤ) : ℤ :=
  (y + BORDER) * ((lgs0 c : ℤ) + 2 * BORDER) + x + BORDER

/-- A sequence of array stores: fold a list of loop states `l`, storing
`v a` at index `key a` for each `a`, over the initial array `f`.  Later
stores win, exactly like sequential assignment. -/
def updSeq {α κ V : Type} [DecidableEq κ] (f : κ → V) (l : List α)
    (key : α → κ) (v : α → V) : κ → V :=
  l.foldl (fun g a k => if k = key a then v a else g k) f

/-- The iteration space of a doubly nested loop: outer loop over `l1`,
inner loop over `l2`. -/
def prodList {α β : Type} (l1 : List α) (l2 : List β) : List (α × β) :=
  l1.foldr (fun a acc => (l2.map fun b => (a, b)) ++ acc) []

/-- The integers `lo, lo+1, ..., hi-1`, the iteration space of
`for (i = lo; i < hi; i++)`. -/
def intRange (lo hi : ℤ) : List ℤ :=
  (List.range (hi - lo).toNat).map fun n : ℕ => lo + (n : ℤ)

/-- The per-worker state: the pair `local_temp[2]` of ghost-bordered
temperature buffers and the ghost-free `local_material` array. -/
structure Worker where
  local_temp : Fin 2 → ℤ → ℚ
  local_material : ℤ → ℚ

/-- Which of the two temperature buffers `step` selects (`step % 2`). -/
def bufIdx (step : ℕ) : Fin 2 := ⟨step % 2, by omega⟩

/-- A worker whose arrays were just `calloc`ed. -/
def initWorker : Worker := ⟨fun _ _ => 0, fun _ => 0⟩

/-- The whole distributed state: one worker per mesh coordinate.  Only the
coordinates inside `[0, dims0) × [0, dims1)` are ever exchanged with or
gathered from. -/
abbrev MeshState := ℤ × ℤ → Worker

/-- Source function `ftcs_solver(step)` (heat.c:143-157): for every local cell, read the
five-point stencil from buffer `step % 2` and the cell's material constant,
and store the update into buffer `(step+1) % 2`. -/
def ftcs_solver (c : Config) (step : ℕ) (w : Worker) : Worker :=
  let inb := w.local_temp (bufIdx step)
  let newOut :=
    updSeq (w.local_temp (bufIdx (step + 1)))
      (prodList (List.range (lgs0 c)) (List.range (lgs1 c)))
      (fun p => lti c p.1 p.2)
      (fun p =>
        inb (lti c p.1 p.2) +
          w.local_material (lmi c p.1 p.2) *
            (inb (lti c (p.1 + 1) p.2) + inb (lti c (p.1 - 1) p.2) +
              inb (lti c p.1 (p.2 + 1)) + inb (lti c p.1 (p.2 - 1)) -
              4 * inb (lti c p.1 p.2)))
  { w with local_temp := fun b => if b = bufIdx (step + 1) then newOut else w.local_temp b }

/-- The map applying `ftcs_solver` on every worker of the mesh (SPMD). -/
def ftcs_all (c : Config) (step : ℕ) (st : MeshState) : MeshState :=
  fun p => ftcs_solver c step (st p)

/-- Source function `border_exchange(step)` (heat.c:179-212).  Receives land in the ghost
cells of `in = local_temp[step % 2]`; all sent data is read from
`out = local_temp[(step+1) % 2]`, which no receive ever writes, so each
message carries the pre-exchange `out` values.  The four receives of a
worker, in program order:

* from `north` into the top ghost row `&in[lti(0,-1)]`, matching the north
  neighbour's send `&out[lti(0,local_grid_size[1])]` to its south;
* from `south` into the bottom ghost row `&in[lti(0,local_grid_size[1])]`,
  matching the south neighbour's send `&out[lti(0,0)]` to its north;
* from `west` into the left ghost column `&in[lti(-1,0)]`, matching the west
  neighbour's send `&out[lti(local_grid_size[0]-1,0)]` to its east;
* from `east` into the right ghost column `&in[lti(local_grid_size[0],0)]`,
  matching the east neighbour's send `&out[lti(0,0)]` to its west.

A receive whose peer is the `MPI_PROC_NULL` sentinel (mesh edge) is a no-op.
`border_row` is `local_grid_size[0]` contiguous floats; `border_col` is
`local_grid_size[1]` floats with stride `local_grid_size[0] + 2`
(heat.c:164-165). -/
def border_exchange (c : Config) (step : ℕ) (st : MeshState) : MeshState :=
  fun p =>
    let w := st p
    let inB := bufIdx step
    let outB := bufIdx (step + 1)
    let L0 := (lgs0 c : ℤ)
    let L1 := (lgs1 c : ℤ)
    let g1 :=
      if 0 < p.2 then
        updSeq (w.local_temp inB) (List.range (lgs0 c))
          (fun x => lti c 0 (-1) + (x : ℤ))
          (fun x => (st (p.1, p.2 - 1)).local_temp outB (lti c 0 L1 + (x : ℤ)))
      else w.local_temp inB
    let g2 :=
      if p.2 < (c.dims1 : ℤ) - 1 then
        updSeq g1 (List.range (lgs0 c))
          (fun x => lti c 0 L1 + (x : ℤ))
          (fun x => (st (p.1, p.2 + 1)).local_temp outB (lti c 0 0 + (x : ℤ)))
      else g1
    let g3 :=
      if 0 < p.1 then
        updSeq g2 (List.range (lgs1 c))
          (fun y => lti c (-1) 0 + (y : ℤ) * (L0 + 2))
          (fun y => (st (p.1 - 1, p.2)).local_temp outB (lti c (L0 - 1) 0 + (y : ℤ) * (L0 + 2)))
      else g2
    let g4 :=
      if p.1 < (c.dims0 : ℤ) - 1 then
        updSeq g3 (List.range (lgs1 c))
          (fun y => lti c L0 0 + (y : ℤ) * (L0 + 2))
          (fun y => (st (p.1 + 1, p.2)).local_temp outB (lti c 0 0 + (y : ℤ) * (L0 + 2)))
      else g3
    { w with local_temp := fun b => if b = inB then g4 else w.local_temp b }

/-- Source function `helpFunctionForDisplacement` (heat.c:462-481), run on root: iterate the
mesh (outer loop `y`, inner loop `x`), and for the worker at cartesian
coordinate `(x, y)` store displacement
`local_grid_size[1] * GRID_SIZE[0] * y + local_grid_size[0] * x` and send
count `1`.  The tables are modelled keyed by the worker's coordinates, which
`MPI_Cart_rank` puts in bijection with ranks.  `calloc` zero-initialises. -/
def helpFunctionForDisplacement (c : Config) : ((ℤ × ℤ) → ℤ) × ((ℤ × ℤ) → ℤ) :=
  (updSeq (fun _ => 0) (prodList (List.range c.dims1) (List.range c.dims0))
      (fun q => ((q.2 : ℤ), (q.1 : ℤ)))
      (fun q => (lgs1 c : ℤ) * (c.grid0 : ℤ) * (q.1 : ℤ) + (lgs0 c : ℤ) * (q.2 : ℤ)),
    updSeq (fun _ => 0) (prodList (List.range c.dims1) (List.range c.dims0))
      (fun q => ((q.2 : ℤ), (q.1 : ℤ)))
      (fun _ => 1))

/-- The `displs` table. -/
def displsF (c : Config) : (ℤ × ℤ) → ℤ := (helpFunctionForDisplacement c).1

/-- The `sendcounts` table. -/
def sendcountsF (c : Config) : (ℤ × ℤ) → ℤ := (helpFunctionForDisplacement c).2

/-- Source function `scatter_temp()` (heat.c:223-228): `MPI_Scatterv` sends to the worker at
coordinate `p` the `localCart` block of the global `temperature` array `T`
starting at element offset `displs[p]` (a `local_grid_size[1]`-row,
`local_grid_size[0]`-column block with source stride `GRID_SIZE[0]`,
heat.c:170-171), received into `local_temp[0]` through the `gather_Temp`
layout, i.e. starting at `lti(0,0)` with destination stride
`local_grid_size[0] + 2` (heat.c:175). -/
def scatter_temp (c : Config) (T : ℤ → ℚ) (st : MeshState) : MeshState :=
  fun p =>
    let w := st p
    let newB0 :=
      updSeq (w.local_temp 0)
        (prodList (List.range (lgs1 c)) (List.range (lgs0 c)))
        (fun q => lti c 0 0 + (q.1 : ℤ) * ((lgs0 c : ℤ) + 2) + (q.2 : ℤ))
        (fun q => T (displsF c p + (q.1 : ℤ) * (c.grid0 : ℤ) + (q.2 : ℤ)))
    { w with local_temp := fun b => if b = 0 then newB0 else w.local_temp b }

/-- Source function `gather_temp(step)` (heat.c:215-220): `MPI_Gatherv` collects from every
worker the `gather_Temp` block of `local_temp[step % 2]` (rows of
`local_grid_size[0]` values starting at `lti(0,0)`, stride
`local_grid_size[0] + 2`) and stores it into the global array at element
offset `displs[p]` through the `localCart` layout (stride `GRID_SIZE[0]`). -/
def gather_temp (c : Config) (step : ℕ) (st : MeshState) (T : ℤ → ℚ) : ℤ → ℚ :=
  updSeq T
    (prodList (prodList (List.range c.dims0) (List.range c.dims1))
      (prodList (List.range (lgs1 c)) (List.range (lgs0 c))))
    (fun q => displsF c ((q.1.1 : ℤ), (q.1.2 : ℤ)) + (q.2.1 : ℤ) * (c.grid0 : ℤ) + (q.2.2 : ℤ))
    (fun q =>
      (st ((q.1.1 : ℤ), (q.1.2 : ℤ))).local_temp (bufIdx step)
        (lti c 0 0 + (q.2.1 : ℤ) * ((lgs0 c : ℤ) + 2) + (q.2.2 : ℤ)))

/-- Source function `init_local_temp()` (heat.c:323-331): store `10.0` into every cell,
ghost border included, of both freshly-`calloc`ed temperature buffers. -/
def init_local_temp (c : Config) (w : Worker) : Worker :=
  { w with
    local_temp := fun b =>
      updSeq (w.local_temp b)
        (prodList (intRange (-BORDER) ((lgs0 c : ℤ) + BORDER))
          (intRange (-BORDER) ((lgs1 c : ℤ) + BORDER)))
        (fun q => lti c q.1 q.2)
        (fun _ => 10) }

/-- Material constant of mercury (heat.c:51). -/
def MERCURY : ℚ := 0.0619

/-- Material constant of copper (heat.c:52). -/
def COPPER : ℚ := 0.116

/-- Material constant of tin (heat.c:53). -/
def TIN : ℚ := 0.040

/-- Material constant of aluminium (heat.c:54). -/
def ALUMINIUM : ℚ := 0.098

/-- Cell size `h = 5e-2` (heat.c:79). -/
def h : ℚ := 5e-2

/-- Time step `dt = 2.5e-3` (heat.c:80). -/
def dt : ℚ := 2.5e-3

/-- Source function `init_temp_material()` (heat.c:333-370), run on root: fill the global
`material` and `temperature` arrays.  The five loops, in program order:

1. background `material` over `x, y ∈ [-(BORDER-1), GRID_SIZE+(BORDER-1))`
   with `MERCURY * (dt/h*h)` — the factor is spelled exactly as in the
   source, where `/` and `*` associate to the left;
2. `temperature = 20.0` and the same mercury `material` over the grid;
3. the copper block with `COPPER * (dt/(h*h))`, `temperature = 60.0`;
4. the tin block with `TIN * (dt/(h*h))`, `temperature = 60.0`;
5. the aluminium heating element with `ALUMINIUM * (dt/(h*h))`,
   `temperature = 100.0` (`x` and `y` upper bounds inclusive).

Returns `(temperature, material)`. -/
def init_temp_material (c : Config) : (ℤ → ℚ) × (ℤ → ℚ) :=
  let G0 := (c.grid0 : ℤ)
  let G1 := (c.grid1 : ℤ)
  let mat1 :=
    updSeq (fun _ => 0)
      (prodList (intRange (-(BORDER - 1)) (G0 + (BORDER - 1)))
        (intRange (-(BORDER - 1)) (G1 + (BORDER - 1))))
      (fun q => mi c q.1 q.2) (fun _ => MERCURY * (dt / h * h))
  let grid := prodList (intRange 0 G0) (intRange 0 G1)
  let temp2 := updSeq (fun _ => 0) grid (fun q => ti c q.1 q.2) (fun _ => 20)
  let mat2 := updSeq mat1 grid (fun q => mi c q.1 q.2) (fun _ => MERCURY * (dt / h * h))
  let copper := prodList (intRange (5 * G0 / 8) (7 * G0 / 8)) (intRange (G1 / 8) (3 * G1 / 8))
  let temp3 := updSeq temp2 copper (fun q => ti c q.1 q.2) (fun _ => 60)
  let mat3 := updSeq mat2 copper (fun q => mi c q.1 q.2) (fun _ => COPPER * (dt / (h * h)))
  let tin := prodList (intRange (G0 / 8) (G0 / 2 - G0 / 8)) (intRange (5 * G1 / 8) (7 * G1 / 8))
  let temp4 := updSeq temp3 tin (fun q => ti c q.1 q.2) (fun _ => 60)
  let mat4 := updSeq mat3 tin (fun q => mi c q.1 q.2) (fun _ => TIN * (dt / (h * h)))
  let alu := prodList (intRange (G0 / 4) (3 * G0 / 4 + 1))
    (intRange (G1 / 2 - G1 / 16) (G1 / 2 + G1 / 16 + 1))
  let temp5 := updSeq temp4 alu (fun q => ti c q.1 q.2) (fun _ => 100)
  let mat5 := updSeq mat4 alu (fun q => mi c q.1 q.2) (fun _ => ALUMINIUM * (dt / (h * h)))
  (temp5, mat5)

/-- The program's actual grid, `GRID_SIZE = {256, 256}` (heat.c:57), with
the mesh dimensions left as parameters (they do not enter
`init_temp_material`). -/
def cfg256 (d0 d1 : ℕ) : Config := ⟨256, 256, d0, d1⟩

/-- The grid/mesh of the spec's displacement-table and scatter/gather
round-trip scenario: a 2×2 mesh over a 4×4 grid, `local_grid_size = [2,2]`. -/
def cfg44 : Config := ⟨4, 4, 2, 2⟩

/-- A 1×2 mesh (one worker above the other) over a 2×4 grid,
`local_grid_size = [2,2]`: the smallest mesh with a north/south pair. -/
def cfg12 : Config := ⟨2, 4, 1, 2⟩

/-- A single worker on a 2×2 grid, `local_grid_size = [2,2]`: all four
neighbours are the no-neighbour sentinel. -/
def cfg11 : Config := ⟨2, 2, 1, 1⟩

/-- The spec's end-to-end scenario mesh: 2×2 workers over an 8×8 grid,
`local_grid_size = [4,4]`. -/
def cfg22 : Config := ⟨8, 8, 2, 2⟩

/-- Mesh state for the halo-correctness check: every worker holds `20.0`
throughout its current buffer `local_temp[0]` and `10.0` throughout its
other buffer `local_temp[1]`, with unit material. -/
def stBorder : MeshState :=
  fun _ => ⟨fun b _ => if b = 0 then 20 else 10, fun _ => 1⟩

/-- Single-worker state with a recognisable non-uniform field in buffer 0
(the square of the linear index) and unit material. -/
def stSquare : MeshState :=
  fun _ => ⟨fun b i => if b = 0 then (i : ℚ) * (i : ℚ) else 0, fun _ => 1⟩

/-- Single-worker state with the constant `42.0` in both buffers. -/
def stConst : MeshState := fun _ => ⟨fun _ _ => 42, fun _ => 0⟩

/-- A worker for the end-to-end scenario: temperature buffers as left by
`init_local_temp` (both all `10.0`), uniform material constant `1`. -/
def wScenario : Worker :=
  ⟨(init_local_temp cfg22 initWorker).local_temp, fun _ => 1⟩

/-- The end-to-end scenario after the initial scatter of the uniform-20
global field, before the first simulation step. -/
def stScenario : MeshState := scatter_temp cfg22 (fun _ => 20) (fun _ => wScenario)

/-- The end-to-end scenario after one full step (halo exchange, then
stencil update) with no external heat. -/
def stScenarioStep : MeshState := ftcs_all cfg22 0 (border_exchange cfg22 0 stScenario)

/-- A sample worker for the stencil witnesses: buffer 0 holds the linear
index, buffer 1 is zero, material is `1`. -/
def wRamp : Worker := ⟨fun b i => if b = 0 then (i : ℚ) else 0, fun _ => 1⟩

/-- A sample worker with constant temperature `7` in both buffers and
constant material `3`. -/
def wSeven : Worker := ⟨fun _ _ => 7, fun _ => 3⟩

lemma updSeq_cons {α κ V : Type} [DecidableEq κ] (f : κ → V) (a : α) (t : List α)
    (key : α → κ) (v : α → V) :
    updSeq f (a :: t) key v = updSeq (fun k => if k = key a then v a else f k) t key v := rfl

lemma updSeq_miss {α κ V : Type} [DecidableEq κ] (l : List α) (key : α → κ) (v : α → V)
    (i : κ) : ∀ f : κ → V, (∀ a ∈ l, key a ≠ i) → updSeq f l key v i = f i := by
  induction l with
  | nil => intro f _; rfl
  | cons a t ih =>
    intro f h
    rw [updSeq_cons, ih _ fun b hb => h b (List.mem_cons_of_mem a hb)]
    exact if_neg fun hh => h a (List.mem_cons_self a t) hh.symm

lemma updSeq_hit {α κ V : Type} [DecidableEq κ] (l : List α) (key : α → κ) (v : α → V)
    (i : κ) (w : V) :
    ∀ f : κ → V, (∃ a ∈ l, key a = i) → (∀ a ∈ l, key a = i → v a = w) →
      updSeq f l key v i = w := by
  induction l with
  | nil => intro f hex _; simp at hex
  | cons a t ih =>
    intro f hex hval
    rw [updSeq_cons]
    by_cases ht : ∃ b ∈ t, key b = i
    · exact ih _ ht fun b hb hk => hval b (List.mem_cons_of_mem a hb) hk
    · push_neg at ht
      have hka : key a = i := by
        rcases hex with ⟨b, hb, hk⟩
        rcases List.mem_cons.mp hb with rfl | hbt
        · exact hk
        · exact absurd hk (ht b hbt)
      rw [updSeq_miss _ _ _ _ _ ht, if_pos hka.symm]
      exact hval a (List.mem_cons_self a t) hka

lemma prodList_cons {α β : Type} (a : α) (t : List α) (l2 : List β) :
    prodList (a :: t) l2 = (l2.map fun b => (a, b)) ++ prodList t l2 := rfl

lemma mem_prodList {α β : Type} {l1 : List α} {l2 : List β} {p : α × β} :
    p ∈ prodList l1 l2 ↔ p.1 ∈ l1 ∧ p.2 ∈ l2 := by
  obtain ⟨x, y⟩ := p
  induction l1 with
  | nil => simp [prodList]
  | cons a t ih =>
    rw [prodList_cons]
    simp only [List.mem_append, List.mem_map, List.mem_cons, ih, Prod.mk.injEq]
    constructor
    · rintro (⟨b, hb, rfl, rfl⟩ | ⟨h1, h2⟩)
      · exact ⟨Or.inl rfl, hb⟩
      · exact ⟨Or.inr h1, h2⟩
    · rintro ⟨rfl | h1, h2⟩
      · exact Or.inl ⟨y, h2, rfl, rfl⟩
      · exact Or.inr ⟨h1, h2⟩

lemma mem_intRange {lo hi x : ℤ} : x ∈ intRange lo hi ↔ lo ≤ x ∧ x < hi := by
  unfold intRange
  constructor
  · intro hmem
    obtain ⟨n, hn, he⟩ := List.mem_map.mp hmem
    rw [List.mem_range] at hn
    subst he
    omega
  · intro hx
    refine List.mem_map.mpr ⟨(x - lo).toNat, ?_, ?_⟩
    · rw [List.mem_range]
      omega
    · omega

lemma stride_inj {s x1 y1 x2 y2 : ℤ} (hs : 0 < s) (h10 : 0 ≤ x1) (h1 : x1 < s)
    (h20 : 0 ≤ x2) (h2 : x2 < s) (h : y1 * s + x1 = y2 * s + x2) :
    x1 = x2 ∧ y1 = y2 := by
  have hd : (y1 - y2) * s = x2 - x1 := by linear_combination h
  have hy : y1 = y2 := by
    rcases lt_trichotomy y1 y2 with hlt | heq | hgt
    · exfalso
      have hle : (y1 - y2) * s ≤ (-1) * s :=
        mul_le_mul_of_nonneg_right (by omega) (le_of_lt hs)
      linarith
    · exact heq
    · exfalso
      have hle : 1 * s ≤ (y1 - y2) * s :=
        mul_le_mul_of_nonneg_right (by omega) (le_of_lt hs)
      linarith
  subst hy
  exact ⟨by linarith [hd], rfl⟩

lemma cell_ne {s r1 c1 r2 c2 : ℤ} (hs : 0 < s) (hc1 : 0 ≤ c1) (hc1' : c1 < s)
    (hc2 : 0 ≤ c2) (hc2' : c2 < s) (hne : r1 ≠ r2 ∨ c1 ≠ c2) :
    r1 * s + c1 ≠ r2 * s + c2 := by
  intro hh
  obtain ⟨hc, hr⟩ := stride_inj hs hc1 hc1' hc2 hc2' hh
  rcases hne with hne | hne
  exacts [hne hr, hne hc]

lemma lti_eq (c : Config) (x y : ℤ) :
    lti c x y = (y + 1) * ((lgs0 c : ℤ) + 2) + (x + 1) := by
  unfold lti BORDER
  ring

lemma lgs0_cast_pos (c : Config) : (0 : ℤ) < (lgs0 c : ℤ) + 2 := by omega

lemma lti_inj (c : Config) {x1 y1 x2 y2 : ℤ} (h10 : -1 ≤ x1) (h1 : x1 ≤ (lgs0 c : ℤ))
    (h20 : -1 ≤ x2) (h2 : x2 ≤ (lgs0 c : ℤ)) (h : lti c x1 y1 = lti c x2 y2) :
    x1 = x2 ∧ y1 = y2 := by
  rw [lti_eq, lti_eq] at h
  have hxy := stride_inj (lgs0_cast_pos c) (by omega) (by omega) (by omega) (by omega) h
  omega

lemma bufIdx_succ_ne (step : ℕ) : bufIdx (step + 1) ≠ bufIdx step := by
  simp only [bufIdx, ne_eq, Fin.mk.injEq]
  omega

lemma bufIdx_eq_zero {step : ℕ} (hstep : step % 2 = 0) : bufIdx step = 0 := by
  apply Fin.ext
  simp [bufIdx, hstep]

lemma ftcs_out_at (c : Config) (step : ℕ) (w : Worker) {x y : ℕ}
    (hx : x < lgs0 c) (hy : y < lgs1 c) :
    (ftcs_solver c step w).local_temp (bufIdx (step + 1)) (lti c x y) =
      w.local_temp (bufIdx step) (lti c x y) +
        w.local_material (lmi c x y) *
          (w.local_temp (bufIdx step) (lti c (x + 1) y) +
            w.local_temp (bufIdx step) (lti c (x - 1) y) +
            w.local_temp (bufIdx step) (lti c x (y + 1)) +
            w.local_temp (bufIdx step) (lti c x (y - 1)) -
            4 * w.local_temp (bufIdx step) (lti c x y)) := by
  simp only [ftcs_solver, if_true, eq_self_iff_true]
  apply updSeq_hit
  · exact ⟨(x, y), mem_prodList.mpr ⟨List.mem_range.mpr hx, List.mem_range.mpr hy⟩, rfl⟩
  · rintro ⟨a, b⟩ hab hk
    obtain ⟨ha, hb⟩ := mem_prodList.mp hab
    rw [List.mem_range] at ha hb
    obtain ⟨hx', hy'⟩ := lti_inj c (by omega) (by omega) (by omega) (by omega) hk
    have hax : a = x := by exact_mod_cast hx'
    have hby : b = y := by exact_mod_cast hy'
    subst hax
    subst hby
    rfl

lemma ftcs_in_unchanged (c : Config) (step : ℕ) (w : Worker) :
    (ftcs_solver c step w).local_temp (bufIdx step) = w.local_temp (bufIdx step) := by
  simp only [ftcs_solver]
  rw [if_neg (bufIdx_succ_ne step).symm]

lemma ftcs_mat_unchanged (c : Config) (step : ℕ) (w : Worker) :
    (ftcs_solver c step w).local_material = w.local_material := rfl

lemma ftcs_out_miss (c : Config) (step : ℕ) (w : Worker) (i : ℤ)
    (h : ∀ (x y : ℕ), x < lgs0 c → y < lgs1 c → i ≠ lti c x y) :
    (ftcs_solver c step w).local_temp (bufIdx (step + 1)) i =
      w.local_temp (bufIdx (step + 1)) i := by
  simp only [ftcs_solver, if_true, eq_self_iff_true]
  apply updSeq_miss
  rintro ⟨a, b⟩ hab
  obtain ⟨ha, hb⟩ := mem_prodList.mp hab
  rw [List.mem_range] at ha hb
  exact Ne.symm (h a b ha hb)

/-- C3: for step `s`, `ftcs_solver` writes into buffer `(s+1) mod 2` the
five-point FTCS update of buffer `s mod 2` and the material array at every
interior (local) coordinate, leaves buffer `s mod 2` and the material array
unchanged, and leaves every cell of buffer `(s+1) mod 2` outside the image
of the interior coordinates unchanged. -/
theorem ftcs_solver_spec (c : Config) (step : ℕ) (w : Worker) :
    (∀ (x y : ℕ), x < lgs0 c → y < lgs1 c →
        (ftcs_solver c step w).local_temp (bufIdx (step + 1)) (lti c x y) =
          w.local_temp (bufIdx step) (lti c x y) +
            w.local_material (lmi c x y) *
              (w.local_temp (bufIdx step) (lti c (x + 1) y) +
                w.local_temp (bufIdx step) (lti c (x - 1) y) +
                w.local_temp (bufIdx step) (lti c x (y + 1)) +
                w.local_temp (bufIdx step) (lti c x (y - 1)) -
                4 * w.local_temp (bufIdx step) (lti c x y))) ∧
      (ftcs_solver c step w).local_temp (bufIdx step) = w.local_temp (bufIdx step) ∧
      (ftcs_solver c step w).local_material = w.local_material ∧
      (∀ i : ℤ, (∀ (x y : ℕ), x < lgs0 c → y < lgs1 c → i ≠ lti c x y) →
        (ftcs_solver c step w).local_temp (bufIdx (step + 1)) i =
          w.local_temp (bufIdx (step + 1)) i) :=
  ⟨fun _ _ hx hy => ftcs_out_at c step w hx hy, ftcs_in_unchanged c step w,
    ftcs_mat_unchanged c step w, ftcs_out_miss c step w⟩

/-- Witness for C3: on a single worker with `local_grid_size = [2,2]`,
buffer 0 holding the linear index and unit material, step 0 writes
`5 + (6 + 4 + 9 + 1 - 4*5) = 5` at local cell (0,0) of buffer 1. -/
theorem ftcs_solver_spec_witness :
    (ftcs_solver cfg11 0 wRamp).local_temp (bufIdx 1) (lti cfg11 0 0) = 5 := by
  have hm := (ftcs_solver_spec cfg11 0 wRamp).1 0 0 (by decide) (by decide)
  exact hm.trans
    (by norm_num [wRamp, lti, lmi, lgs0, lgs1, cfg11, BORDER, bufIdx, Fin.ext_iff])

/-- C8: if every cell of the input buffer (ghost cells included) holds the
constant `t` and every material cell holds the constant `m`, one stencil
step leaves every interior value equal to `t`. -/
theorem ftcs_solver_uniform (c : Config) (step : ℕ) (w : Worker) (t m : ℚ)
    (hT : ∀ i : ℤ, w.local_temp (bufIdx step) i = t)
    (hM : ∀ i : ℤ, w.local_material i = m) :
    ∀ (x y : ℕ), x < lgs0 c → y < lgs1 c →
      (ftcs_solver c step w).local_temp (bufIdx (step + 1)) (lti c x y) = t := by
  intro x y hx hy
  rw [ftcs_out_at c step w hx hy, hT, hT, hT, hT, hT, hM]
  ring

/-- Witness for C8: constant temperature `7` with constant material `3` is
left at `7` by one stencil step. -/
theorem ftcs_solver_uniform_witness :
    (ftcs_solver cfg11 0 wSeven).local_temp (bufIdx 1) (lti cfg11 0 0) = 7 :=
  ftcs_solver_uniform cfg11 0 wSeven 7 3 (fun _ => rfl) (fun _ => rfl) 0 0
    (by decide) (by decide)

lemma ite_updSeq_miss {α κ V : Type} [DecidableEq κ] {cond : Prop} [Decidable cond]
    (g : κ → V) (l : List α) (key : α → κ) (v : α → V) (i : κ)
    (h : ∀ a ∈ l, key a ≠ i) :
    (if cond then updSeq g l key v else g) i = g i := by
  by_cases hc : cond
  · rw [if_pos hc]
    exact updSeq_miss l key v i g h
  · rw [if_neg hc]

lemma key_top (c : Config) (x : ℤ) :
    lti c 0 (-1) + x = 0 * ((lgs0 c : ℤ) + 2) + (x + 1) := by
  rw [lti_eq]
  ring

lemma key_bottom (c : Config) (x : ℤ) :
    lti c 0 (lgs1 c : ℤ) + x = ((lgs1 c : ℤ) + 1) * ((lgs0 c : ℤ) + 2) + (x + 1) := by
  rw [lti_eq]
  ring

lemma key_left (c : Config) (y : ℤ) :
    lti c (-1) 0 + y * ((lgs0 c : ℤ) + 2) = (y + 1) * ((lgs0 c : ℤ) + 2) + 0 := by
  rw [lti_eq]
  ring

lemma key_right (c : Config) (y : ℤ) :
    lti c (lgs0 c : ℤ) 0 + y * ((lgs0 c : ℤ) + 2) =
      (y + 1) * ((lgs0 c : ℤ) + 2) + ((lgs0 c : ℤ) + 1) := by
  rw [lti_eq]
  ring

lemma border_exchange_out (c : Config) (step : ℕ) (st : MeshState) (p : ℤ × ℤ) :
    (border_exchange c step st p).local_temp (bufIdx (step + 1)) =
      (st p).local_temp (bufIdx (step + 1)) := by
  simp only [border_exchange]
  rw [if_neg (bufIdx_succ_ne step)]

lemma border_exchange_mat (c : Config) (step : ℕ) (st : MeshState) (p : ℤ × ℤ) :
    (border_exchange c step st p).local_material = (st p).local_material := rfl

lemma border_exchange_top_absent (c : Config) (step : ℕ) (st : MeshState) (p : ℤ × ℤ)
    (hn : ¬ 0 < p.2) {x : ℤ} (h0 : -1 ≤ x) (h1 : x ≤ (lgs0 c : ℤ)) :
    (border_exchange c step st p).local_temp (bufIdx step) (lti c x (-1)) =
      (st p).local_temp (bufIdx step) (lti c x (-1)) := by
  have hs := lgs0_cast_pos c
  have m4 : ∀ a ∈ List.range (lgs1 c),
      lti c (lgs0 c : ℤ) 0 + (a : ℤ) * ((lgs0 c : ℤ) + 2) ≠ lti c x (-1) := by
    intro a ha
    rw [List.mem_range] at ha
    rw [key_right, lti_eq]
    exact cell_ne hs (by omega) (by omega) (by omega) (by omega) (Or.inl (by omega))
  have m3 : ∀ a ∈ List.range (lgs1 c),
      lti c (-1) 0 + (a : ℤ) * ((lgs0 c : ℤ) + 2) ≠ lti c x (-1) := by
    intro a ha
    rw [List.mem_range] at ha
    rw [key_left, lti_eq]
    exact cell_ne hs (by omega) (by omega) (by omega) (by omega) (Or.inl (by omega))
  have m2 : ∀ a ∈ List.range (lgs0 c),
      lti c 0 (lgs1 c : ℤ) + (a : ℤ) ≠ lti c x (-1) := by
    intro a ha
    rw [List.mem_range] at ha
    rw [key_bottom, lti_eq]
    exact cell_ne hs (by omega) (by omega) (by omega) (by omega) (Or.inl (by omega))
  simp only [border_exchange, if_true, eq_self_iff_true]
  rw [ite_updSeq_miss _ _ _ _ _ m4, ite_updSeq_miss _ _ _ _ _ m3,
    ite_updSeq_miss _ _ _ _ _ m2, if_neg hn]

lemma border_exchange_bottom_absent (c : Config) (step : ℕ) (st : MeshState) (p : ℤ × ℤ)
    (hn : ¬ p.2 < (c.dims1 : ℤ) - 1) {x : ℤ} (h0 : -1 ≤ x) (h1 : x ≤ (lgs0 c : ℤ)) :
    (border_exchange c step st p).local_temp (bufIdx step) (lti c x (lgs1 c : ℤ)) =
      (st p).local_temp (bufIdx step) (lti c x (lgs1 c : ℤ)) := by
  have hs := lgs0_cast_pos c
  have m4 : ∀ a ∈ List.range (lgs1 c),
      lti c (lgs0 c : ℤ) 0 + (a : ℤ) * ((lgs0 c : ℤ) + 2) ≠ lti c x (lgs1 c : ℤ) := by
    intro a ha
    rw [List.mem_range] at ha
    rw [key_right, lti_eq]
    exact cell_ne hs (by omega) (by omega) (by omega) (by omega) (Or.inl (by omega))
  have m3 : ∀ a ∈ List.range (lgs1 c),
      lti c (-1) 0 + (a : ℤ) * ((lgs0 c : ℤ) + 2) ≠ lti c x (lgs1 c : ℤ) := by
    intro a ha
    rw [List.mem_range] at ha
    rw [key_left, lti_eq]
    exact cell_ne hs (by omega) (by omega) (by omega) (by omega) (Or.inl (by omega))
  have m1 : ∀ a ∈ List.range (lgs0 c),
      lti c 0 (-1) + (a : ℤ) ≠ lti c x (lgs1 c : ℤ) := by
    intro a ha
    rw [List.mem_range] at ha
    rw [key_top, lti_eq]
    exact cell_ne hs (by omega) (by omega) (by omega) (by omega) (Or.inl (by omega))
  simp only [border_exchange, if_true, eq_self_iff_true]
  rw [ite_updSeq_miss _ _ _ _ _ m4, ite_updSeq_miss _ _ _ _ _ m3, if_neg hn,
    ite_updSeq_miss _ _ _ _ _ m1]

lemma border_exchange_left_absent (c : Config) (step : ℕ) (st : MeshState) (p : ℤ × ℤ)
    (hn : ¬ 0 < p.1) {y : ℤ} (h0 : -1 ≤ y) (h1 : y ≤ (lgs1 c : ℤ)) :
    (border_exchange c step st p).local_temp (bufIdx step) (lti c (-1) y) =
      (st p).local_temp (bufIdx step) (lti c (-1) y) := by
  have hs := lgs0_cast_pos c
  have m4 : ∀ a ∈ List.range (lgs1 c),
      lti c (lgs0 c : ℤ) 0 + (a : ℤ) * ((lgs0 c : ℤ) + 2) ≠ lti c (-1) y := by
    intro a ha
    rw [List.mem_range] at ha
    rw [key_right, lti_eq]
    exact cell_ne hs (by omega) (by omega) (by omega) (by omega) (Or.inr (by omega))
  have m2 : ∀ a ∈ List.range (lgs0 c),
      lti c 0 (lgs1 c : ℤ) + (a : ℤ) ≠ lti c (-1) y := by
    intro a ha
    rw [List.mem_range] at ha
    rw [key_bottom, lti_eq]
    exact cell_ne hs (by omega) (by omega) (by omega) (by omega) (Or.inr (by omega))
  have m1 : ∀ a ∈ List.range (lgs0 c),
      lti c 0 (-1) + (a : ℤ) ≠ lti c (-1) y := by
    intro a ha
    rw [List.mem_range] at ha
    rw [key_top, lti_eq]
    exact cell_ne hs (by omega) (by omega) (by omega) (by omega) (Or.inr (by omega))
  simp only [border_exchange, if_true, eq_self_iff_true]
  rw [ite_updSeq_miss _ _ _ _ _ m4, if_neg hn, ite_updSeq_miss _ _ _ _ _ m2,
    ite_updSeq_miss _ _ _ _ _ m1]

lemma border_exchange_right_absent (c : Config) (step : ℕ) (st : MeshState) (p : ℤ × ℤ)
    (hn : ¬ p.1 < (c.dims0 : ℤ) - 1) {y : ℤ} (h0 : -1 ≤ y) (h1 : y ≤ (lgs1 c : ℤ)) :
    (border_exchange c step st p).local_temp (bufIdx step) (lti c (lgs0 c : ℤ) y) =
      (st p).local_temp (bufIdx step) (lti c (lgs0 c : ℤ) y) := by
  have hs := lgs0_cast_pos c
  have m3 : ∀ a ∈ List.range (lgs1 c),
      lti c (-1) 0 + (a : ℤ) * ((lgs0 c : ℤ) + 2) ≠ lti c (lgs0 c : ℤ) y := by
    intro a ha
    rw [List.mem_range] at ha
    rw [key_left, lti_eq]
    exact cell_ne hs (by omega) (by omega) (by omega) (by omega) (Or.inr (by omega))
  have m2 : ∀ a ∈ List.range (lgs0 c),
      lti c 0 (lgs1 c : ℤ) + (a : ℤ) ≠ lti c (lgs0 c : ℤ) y := by
    intro a ha
    rw [List.mem_range] at ha
    rw [key_bottom, lti_eq]
    exact cell_ne hs (by omega) (by omega) (by omega) (by omega) (Or.inr (by omega))
  have m1 : ∀ a ∈ List.range (lgs0 c),
      lti c 0 (-1) + (a : ℤ) ≠ lti c (lgs0 c : ℤ) y := by
    intro a ha
    rw [List.mem_range] at ha
    rw [key_top, lti_eq]
    exact cell_ne hs (by omega) (by omega) (by omega) (by omega) (Or.inr (by omega))
  simp only [border_exchange, if_true, eq_self_iff_true]
  rw [if_neg hn, ite_updSeq_miss _ _ _ _ _ m3, ite_updSeq_miss _ _ _ _ _ m2,
    ite_updSeq_miss _ _ _ _ _ m1]

lemma border_exchange_interior (c : Config) (step : ℕ) (st : MeshState) (p : ℤ × ℤ)
    {x y : ℕ} (hx : x < lgs0 c) (hy : y < lgs1 c) :
    (border_exchange c step st p).local_temp (bufIdx step) (lti c x y) =
      (st p).local_temp (bufIdx step) (lti c x y) := by
  have hs := lgs0_cast_pos c
  have m4 : ∀ a ∈ List.range (lgs1 c),
      lti c (lgs0 c : ℤ) 0 + (a : ℤ) * ((lgs0 c : ℤ) + 2) ≠ lti c x y := by
    intro a ha
    rw [List.mem_range] at ha
    rw [key_right, lti_eq]
    exact cell_ne hs (by omega) (by omega) (by omega) (by omega) (Or.inr (by omega))
  have m3 : ∀ a ∈ List.range (lgs1 c),
      lti c (-1) 0 + (a : ℤ) * ((lgs0 c : ℤ) + 2) ≠ lti c x y := by
    intro a ha
    rw [List.mem_range] at ha
    rw [key_left, lti_eq]
    exact cell_ne hs (by omega) (by omega) (by omega) (by omega) (Or.inr (by omega))
  have m2 : ∀ a ∈ List.range (lgs0 c),
      lti c 0 (lgs1 c : ℤ) + (a : ℤ) ≠ lti c x y := by
    intro a ha
    rw [List.mem_range] at ha
    rw [key_bottom, lti_eq]
    exact cell_ne hs (by omega) (by omega) (by omega) (by omega) (Or.inl (by omega))
  have m1 : ∀ a ∈ List.range (lgs0 c),
      lti c 0 (-1) + (a : ℤ) ≠ lti c x y := by
    intro a ha
    rw [List.mem_range] at ha
    rw [key_top, lti_eq]
    exact cell_ne hs (by omega) (by omega) (by omega) (by omega) (Or.inl (by omega))
  simp only [border_exchange, if_true, eq_self_iff_true]
  rw [ite_updSeq_miss _ _ _ _ _ m4, ite_updSeq_miss _ _ _ _ _ m3,
    ite_updSeq_miss _ _ _ _ _ m2, ite_updSeq_miss _ _ _ _ _ m1]

/-- C5: a send or receive of `border_exchange` addressed to an absent
neighbour is a no-op on the data.  The `(step+1) mod 2` buffer of every
worker is never written at all (sends do not modify memory), the material
array is untouched, and for a worker at a mesh edge the ghost cells on each
missing side of the current buffer `step mod 2` — the only cells the receive
from that neighbour would have written — keep their previous values. -/
theorem border_exchange_no_neighbor_noop (c : Config) (step : ℕ) (st : MeshState)
    (p : ℤ × ℤ) :
    ((border_exchange c step st p).local_temp (bufIdx (step + 1)) =
        (st p).local_temp (bufIdx (step + 1))) ∧
      ((border_exchange c step st p).local_material = (st p).local_material) ∧
      (¬ 0 < p.2 → ∀ x : ℤ, -1 ≤ x → x ≤ (lgs0 c : ℤ) →
        (border_exchange c step st p).local_temp (bufIdx step) (lti c x (-1)) =
          (st p).local_temp (bufIdx step) (lti c x (-1))) ∧
      (¬ p.2 < (c.dims1 : ℤ) - 1 → ∀ x : ℤ, -1 ≤ x → x ≤ (lgs0 c : ℤ) →
        (border_exchange c step st p).local_temp (bufIdx step) (lti c x (lgs1 c : ℤ)) =
          (st p).local_temp (bufIdx step) (lti c x (lgs1 c : ℤ))) ∧
      (¬ 0 < p.1 → ∀ y : ℤ, -1 ≤ y → y ≤ (lgs1 c : ℤ) →
        (border_exchange c step st p).local_temp (bufIdx step) (lti c (-1) y) =
          (st p).local_temp (bufIdx step) (lti c (-1) y)) ∧
      (¬ p.1 < (c.dims0 : ℤ) - 1 → ∀ y : ℤ, -1 ≤ y → y ≤ (lgs1 c : ℤ) →
        (border_exchange c step st p).local_temp (bufIdx step) (lti c (lgs0 c : ℤ) y) =
          (st p).local_temp (bufIdx step) (lti c (lgs0 c : ℤ) y)) :=
  ⟨border_exchange_out c step st p, border_exchange_mat c step st p,
    fun hn _ h0 h1 => border_exchange_top_absent c step st p hn h0 h1,
    fun hn _ h0 h1 => border_exchange_bottom_absent c step st p hn h0 h1,
    fun hn _ h0 h1 => border_exchange_left_absent c step st p hn h0 h1,
    fun hn _ h0 h1 => border_exchange_right_absent c step st p hn h0 h1⟩

/-- Witness for C5: the lone worker of a 1×1 mesh (all four neighbours
absent) keeps its top ghost cell value `42` across `border_exchange`. -/
theorem border_exchange_no_neighbor_noop_witness :
    (border_exchange cfg11 0 stConst (0, 0)).local_temp (bufIdx 0) (lti cfg11 0 (-1)) = 42 := by
  have h := (border_exchange_no_neighbor_noop cfg11 0 stConst (0, 0)).2.2.1
    (by decide) 0 (by decide) (by decide)
  exact h.trans rfl

/-- C1 refutation: on a 1×2 mesh where every worker's current buffer
(`local_temp[0]` at step 0) is identically `20.0` and the other buffer is
identically `10.0`, `border_exchange(0)` stores `10.0` into the south
worker's top ghost cell: the value of the north neighbour's *stale* buffer
(indeed of its bottom ghost row), not the `20.0` every cell of the north
neighbour's current bottom interior row holds. -/
theorem border_exchange_stale_ghost :
    (border_exchange cfg12 0 stBorder (0, 1)).local_temp (bufIdx 0) (lti cfg12 0 (-1)) = 10 ∧
      (stBorder (0, 0)).local_temp (bufIdx 0) (lti cfg12 0 ((lgs1 cfg12 : ℤ) - 1)) = 20 ∧
      (10 : ℚ) ≠ 20 :=
  ⟨by rfl, by rfl, by norm_num⟩

lemma displsF_at (c : Config) {x y : ℕ} (hx : x < c.dims0) (hy : y < c.dims1) :
    displsF c ((x : ℤ), (y : ℤ)) =
      (lgs1 c : ℤ) * (c.grid0 : ℤ) * (y : ℤ) + (lgs0 c : ℤ) * (x : ℤ) := by
  unfold displsF helpFunctionForDisplacement
  apply updSeq_hit
  · exact ⟨(y, x), mem_prodList.mpr ⟨List.mem_range.mpr hy, List.mem_range.mpr hx⟩, rfl⟩
  · rintro ⟨b1, b2⟩ _ hk
    rw [Prod.mk.injEq] at hk
    obtain ⟨hk1, hk2⟩ := hk
    have e1 : b2 = x := by exact_mod_cast hk1
    have e2 : b1 = y := by exact_mod_cast hk2
    subst e1
    subst e2
    rfl

lemma sendcountsF_at (c : Config) {x y : ℕ} (hx : x < c.dims0) (hy : y < c.dims1) :
    sendcountsF c ((x : ℤ), (y : ℤ)) = 1 := by
  unfold sendcountsF helpFunctionForDisplacement
  apply updSeq_hit
  · exact ⟨(y, x), mem_prodList.mpr ⟨List.mem_range.mpr hy, List.mem_range.mpr hx⟩, rfl⟩
  · intro _ _ _
    rfl

/-- C6: on root, `helpFunctionForDisplacement` assigns to the worker owning
mesh coordinate `(x, y)` the displacement
`local_grid_size[1] * GRID_SIZE[0] * y + local_grid_size[0] * x` into the
flattened global field and a send count of exactly `1` block. -/
theorem helpFunctionForDisplacement_spec (c : Config) (x y : ℕ)
    (hx : x < c.dims0) (hy : y < c.dims1) :
    displsF c ((x : ℤ), (y : ℤ)) =
        (lgs1 c : ℤ) * (c.grid0 : ℤ) * (y : ℤ) + (lgs0 c : ℤ) * (x : ℤ) ∧
      sendcountsF c ((x : ℤ), (y : ℤ)) = 1 :=
  ⟨displsF_at c hx hy, sendcountsF_at c hx hy⟩

/-- Witness for C6: for a 2×2 mesh over a 4×4 grid
(`local_grid_size = [2,2]`), the worker at mesh coordinate (1,1) gets
displacement `2*4 + 2 = 10` and send count 1. -/
theorem helpFunctionForDisplacement_spec_witness :
    displsF cfg44 (1, 1) = 10 ∧ sendcountsF cfg44 (1, 1) = 1 := by
  have hm := helpFunctionForDisplacement_spec cfg44 1 1 (by decide) (by decide)
  exact ⟨hm.1.trans (by norm_num [lgs0, lgs1, cfg44]), hm.2⟩

lemma lti_block (c : Config) (r cc : ℤ) :
    lti c 0 0 + r * ((lgs0 c : ℤ) + 2) + cc = lti c cc r := by
  rw [lti_eq, lti_eq]
  ring

lemma scatter_temp_at (c : Config) (T : ℤ → ℚ) (st : MeshState) (p : ℤ × ℤ)
    {cc r : ℕ} (hc : cc < lgs0 c) (hr : r < lgs1 c) :
    (scatter_temp c T st p).local_temp 0 (lti c (cc : ℤ) (r : ℤ)) =
      T (displsF c p + (r : ℤ) * (c.grid0 : ℤ) + (cc : ℤ)) := by
  simp only [scatter_temp, if_true, eq_self_iff_true]
  apply updSeq_hit
  · exact ⟨(r, cc), mem_prodList.mpr ⟨List.mem_range.mpr hr, List.mem_range.mpr hc⟩,
      lti_block c r cc⟩
  · rintro ⟨b1, b2⟩ hb hk
    obtain ⟨h1, h2⟩ := mem_prodList.mp hb
    rw [List.mem_range] at h1 h2
    rw [lti_block] at hk
    obtain ⟨e1, e2⟩ := lti_inj c (by omega) (by omega) (by omega) (by omega) hk
    have e1' : b2 = cc := by exact_mod_cast e1
    have e2' : b1 = r := by exact_mod_cast e2
    subst e1'
    subst e2'
    rfl

lemma scatter_temp_other_buffer (c : Config) (T : ℤ → ℚ) (st : MeshState) (p : ℤ × ℤ) :
    (scatter_temp c T st p).local_temp 1 = (st p).local_temp 1 := by
  simp only [scatter_temp]
  rw [if_neg (by decide : (1 : Fin 2) ≠ 0)]

lemma scatter_temp_mat (c : Config) (T : ℤ → ℚ) (st : MeshState) (p : ℤ × ℤ) :
    (scatter_temp c T st p).local_material = (st p).local_material := rfl

lemma scatter_temp_miss (c : Config) (T : ℤ → ℚ) (st : MeshState) (p : ℤ × ℤ) (i : ℤ)
    (h : ∀ (r cc : ℕ), r < lgs1 c → cc < lgs0 c → i ≠ lti c (cc : ℤ) (r : ℤ)) :
    (scatter_temp c T st p).local_temp 0 i = (st p).local_temp 0 i := by
  simp only [scatter_temp, if_true, eq_self_iff_true]
  apply updSeq_miss
  rintro ⟨b1, b2⟩ hb
  obtain ⟨h1, h2⟩ := mem_prodList.mp hb
  rw [List.mem_range] at h1 h2
  rw [lti_block]
  exact Ne.symm (h b1 b2 h1 h2)

lemma scatter_temp_ghost (c : Config) (T : ℤ → ℚ) (st : MeshState) (p : ℤ × ℤ)
    {x y : ℤ} (hx0 : -1 ≤ x) (hx1 : x ≤ (lgs0 c : ℤ))
    (hb : x = -1 ∨ x = (lgs0 c : ℤ) ∨ y = -1 ∨ y = (lgs1 c : ℤ)) :
    (scatter_temp c T st p).local_temp 0 (lti c x y) =
      (st p).local_temp 0 (lti c x y) := by
  apply scatter_temp_miss
  intro r cc hr hc heq
  obtain ⟨e1, e2⟩ := lti_inj c hx0 hx1 (by omega) (by omega) heq
  rcases hb with h | h | h | h <;> omega

lemma init_local_temp_at (c : Config) (w : Worker) (b : Fin 2) {x y : ℤ}
    (hx0 : -1 ≤ x) (hx1 : x < (lgs0 c : ℤ) + 1) (hy0 : -1 ≤ y) (hy1 : y < (lgs1 c : ℤ) + 1) :
    (init_local_temp c w).local_temp b (lti c x y) = 10 := by
  simp only [init_local_temp]
  apply updSeq_hit
  · refine ⟨(x, y), mem_prodList.mpr ⟨mem_intRange.mpr ⟨?_, ?_⟩, mem_intRange.mpr ⟨?_, ?_⟩⟩, rfl⟩
    all_goals unfold BORDER
    all_goals omega
  · intro _ _ _
    rfl

/-- C10: `scatter_temp` writes only interior cells of buffer 0:
`local_temp[1]` is untouched, the material array is untouched, every ghost
cell of buffer 0 is untouched, and in particular right after
`init_local_temp` plus scatter all ghost cells of buffer 0 and all of
buffer 1 still hold the init value `10.0`. -/
theorem scatter_temp_frame (c : Config) (T : ℤ → ℚ) (st : MeshState) (p : ℤ × ℤ) :
    ((scatter_temp c T st p).local_temp 1 = (st p).local_temp 1) ∧
      ((scatter_temp c T st p).local_material = (st p).local_material) ∧
      (∀ x y : ℤ, -1 ≤ x → x ≤ (lgs0 c : ℤ) →
        (x = -1 ∨ x = (lgs0 c : ℤ) ∨ y = -1 ∨ y = (lgs1 c : ℤ)) →
        (scatter_temp c T st p).local_temp 0 (lti c x y) =
          (st p).local_temp 0 (lti c x y)) ∧
      (∀ (w0 : Worker) (x y : ℤ), -1 ≤ x → x < (lgs0 c : ℤ) + 1 → -1 ≤ y →
        y < (lgs1 c : ℤ) + 1 →
        (x = -1 ∨ x = (lgs0 c : ℤ) ∨ y = -1 ∨ y = (lgs1 c : ℤ)) →
        (scatter_temp c T (fun _ => init_local_temp c w0) p).local_temp 0 (lti c x y) = 10) ∧
      (∀ (w0 : Worker) (x y : ℤ), -1 ≤ x → x < (lgs0 c : ℤ) + 1 → -1 ≤ y →
        y < (lgs1 c : ℤ) + 1 →
        (scatter_temp c T (fun _ => init_local_temp c w0) p).local_temp 1 (lti c x y) = 10) := by
  refine ⟨scatter_temp_other_buffer c T st p, scatter_temp_mat c T st p,
    fun x y hx0 hx1 hb => scatter_temp_ghost c T st p hx0 hx1 hb, ?_, ?_⟩
  · intro w0 x y hx0 hx1 hy0 hy1 hb
    rw [scatter_temp_ghost c T _ p hx0 (by omega) hb]
    exact init_local_temp_at c w0 0 hx0 hx1 hy0 hy1
  · intro w0 x y hx0 hx1 hy0 hy1
    rw [show (scatter_temp c T (fun _ => init_local_temp c w0) p).local_temp 1 =
        (init_local_temp c w0).local_temp 1 from scatter_temp_other_buffer c T _ p]
    exact init_local_temp_at c w0 1 hx0 hx1 hy0 hy1

/-- Witness for C10: on the 2×2 mesh over the 4×4 grid, after init and a
scatter of the ramp field, worker (0,0)'s buffer-0 ghost cell (-1,0) and
buffer-1 cell (0,0) still hold 10.0, and buffer 1 equals its pre-scatter
state. -/
theorem scatter_temp_frame_witness :
    (scatter_temp cfg44 (fun i => (i : ℚ)) (fun _ => init_local_temp cfg44 initWorker)
        (0, 0)).local_temp 0 (lti cfg44 (-1) 0) = 10 ∧
      (scatter_temp cfg44 (fun i => (i : ℚ)) (fun _ => init_local_temp cfg44 initWorker)
        (0, 0)).local_temp 1 (lti cfg44 0 0) = 10 := by
  have hm := scatter_temp_frame cfg44 (fun i => (i : ℚ))
    (fun _ => init_local_temp cfg44 initWorker) (0, 0)
  exact ⟨hm.2.2.2.1 initWorker (-1) 0 (by decide) (by decide) (by decide) (by decide)
      (Or.inl rfl),
    hm.2.2.2.2 initWorker 0 0 (by decide) (by decide) (by decide) (by decide)⟩

lemma lgs0_pos (c : Config) (hv : c.valid) : 0 < lgs0 c :=
  Nat.div_pos (Nat.le_of_dvd hv.2.2.2.2.1 hv.2.2.1) hv.1

lemma lgs1_pos (c : Config) (hv : c.valid) : 0 < lgs1 c :=
  Nat.div_pos (Nat.le_of_dvd hv.2.2.2.2.2 hv.2.2.2.1) hv.2.1

lemma grid0_eq (c : Config) (hv : c.valid) : c.dims0 * lgs0 c = c.grid0 :=
  Nat.mul_div_cancel' hv.2.2.1

lemma grid1_eq (c : Config) (hv : c.valid) : c.dims1 * lgs1 c = c.grid1 :=
  Nat.mul_div_cancel' hv.2.2.2.1

lemma block_lt {D L b cc : ℤ} (hD : b < D) (hc : cc < L) (hb : 0 ≤ b) (hL : 0 < L) :
    b * L + cc < D * L := by
  nlinarith [mul_le_mul_of_nonneg_right (show b ≤ D - 1 by omega) (le_of_lt hL)]

lemma gather_temp_apply (c : Config) (hv : c.valid) (step : ℕ) (st : MeshState)
    (T : ℤ → ℚ) {gx gy : ℕ} (hx : gx < c.grid0) (hy : gy < c.grid1) :
    gather_temp c step st T (ti c (gx : ℤ) (gy : ℤ)) =
      (st (((gx / lgs0 c : ℕ) : ℤ), ((gy / lgs1 c : ℕ) : ℤ))).local_temp (bufIdx step)
        (lti c ((gx % lgs0 c : ℕ) : ℤ) ((gy % lgs1 c : ℕ) : ℤ)) := by
  have hL0 := lgs0_pos c hv
  have hL1 := lgs1_pos c hv
  have hG0 := grid0_eq c hv
  have hG1 := grid1_eq c hv
  have hq0 : gx / lgs0 c < c.dims0 := by
    rw [Nat.div_lt_iff_lt_mul hL0, hG0]
    exact hx
  have hq1 : gy / lgs1 c < c.dims1 := by
    rw [Nat.div_lt_iff_lt_mul hL1, hG1]
    exact hy
  have hr0 : gx % lgs0 c < lgs0 c := Nat.mod_lt _ hL0
  have hr1 : gy % lgs1 c < lgs1 c := Nat.mod_lt _ hL1
  have e0 : (lgs0 c : ℤ) * ((gx / lgs0 c : ℕ) : ℤ) + ((gx % lgs0 c : ℕ) : ℤ) = (gx : ℤ) := by
    exact_mod_cast congrArg (Nat.cast : ℕ → ℤ) (Nat.div_add_mod gx (lgs0 c))
  have e1 : (lgs1 c : ℤ) * ((gy / lgs1 c : ℕ) : ℤ) + ((gy % lgs1 c : ℕ) : ℤ) = (gy : ℤ) := by
    exact_mod_cast congrArg (Nat.cast : ℕ → ℤ) (Nat.div_add_mod gy (lgs1 c))
  have hG0z : (c.dims0 : ℤ) * (lgs0 c : ℤ) = (c.grid0 : ℤ) := by exact_mod_cast hG0
  have hG1z : (c.dims1 : ℤ) * (lgs1 c : ℤ) = (c.grid1 : ℤ) := by exact_mod_cast hG1
  have hg0 : (0 : ℤ) < (c.grid0 : ℤ) := by exact_mod_cast hv.2.2.2.2.1
  unfold gather_temp
  apply updSeq_hit
  · refine ⟨((gx / lgs0 c, gy / lgs1 c), (gy % lgs1 c, gx % lgs0 c)),
      mem_prodList.mpr ⟨mem_prodList.mpr ⟨List.mem_range.mpr hq0, List.mem_range.mpr hq1⟩,
        mem_prodList.mpr ⟨List.mem_range.mpr hr1, List.mem_range.mpr hr0⟩⟩, ?_⟩
    rw [displsF_at c hq0 hq1, ti]
    linear_combination (c.grid0 : ℤ) * e1 + e0
  · rintro ⟨⟨bx, by'⟩, br, bc⟩ hb hk
    obtain ⟨hb1, hb2⟩ := mem_prodList.mp hb
    obtain ⟨hbx, hby⟩ := mem_prodList.mp hb1
    obtain ⟨hbr, hbc⟩ := mem_prodList.mp hb2
    rw [List.mem_range] at hbx hby hbr hbc
    have hbx' : bx < c.dims0 := hbx
    have hby' : by' < c.dims1 := hby
    have hbr' : br < lgs1 c := hbr
    have hbc' : bc < lgs0 c := hbc
    rw [displsF_at c hbx' hby', ti] at hk
    have hk' : ((by' : ℤ) * (lgs1 c : ℤ) + (br : ℤ)) * (c.grid0 : ℤ) +
        ((bx : ℤ) * (lgs0 c : ℤ) + (bc : ℤ)) = (gy : ℤ) * (c.grid0 : ℤ) + (gx : ℤ) := by
      linear_combination hk
    have hL0z : (0 : ℤ) < (lgs0 c : ℤ) := by exact_mod_cast hL0
    have hL1z : (0 : ℤ) < (lgs1 c : ℤ) := by exact_mod_cast hL1
    have hbcz : (bc : ℤ) < (lgs0 c : ℤ) := by exact_mod_cast hbc'
    have hbrz : (br : ℤ) < (lgs1 c : ℤ) := by exact_mod_cast hbr'
    have hcol : (bx : ℤ) * (lgs0 c : ℤ) + (bc : ℤ) < (c.grid0 : ℤ) := by
      rw [← hG0z]
      exact block_lt (by exact_mod_cast hbx') hbcz (by positivity) hL0z
    have hcol0 : (0 : ℤ) ≤ (bx : ℤ) * (lgs0 c : ℤ) + (bc : ℤ) := by positivity
    obtain ⟨ecol, erow⟩ := stride_inj hg0 hcol0 hcol (by positivity)
      (by exact_mod_cast hx) hk'
    have hrxz : ((gx % lgs0 c : ℕ) : ℤ) < (lgs0 c : ℤ) := by exact_mod_cast hr0
    have hryz : ((gy % lgs1 c : ℕ) : ℤ) < (lgs1 c : ℤ) := by exact_mod_cast hr1
    have hx2 : (bx : ℤ) * (lgs0 c : ℤ) + (bc : ℤ) =
        ((gx / lgs0 c : ℕ) : ℤ) * (lgs0 c : ℤ) + ((gx % lgs0 c : ℕ) : ℤ) := by
      linear_combination ecol - e0
    obtain ⟨ec, ex⟩ := stride_inj hL0z (by positivity) hbcz (by positivity) hrxz hx2
    have hy2 : (by' : ℤ) * (lgs1 c : ℤ) + (br : ℤ) =
        ((gy / lgs1 c : ℕ) : ℤ) * (lgs1 c : ℤ) + ((gy % lgs1 c : ℕ) : ℤ) := by
      linear_combination erow - e1
    obtain ⟨er, ey⟩ := stride_inj hL1z (by positivity) hbrz (by positivity) hryz hy2
    have ebx : bx = gx / lgs0 c := by exact_mod_cast ex
    have eby : by' = gy / lgs1 c := by exact_mod_cast ey
    have ebc : bc = gx % lgs0 c := by exact_mod_cast ec
    have ebr : br = gy % lgs1 c := by exact_mod_cast er
    subst ebx
    subst eby
    subst ebc
    subst ebr
    rw [lti_block]

/-- C2: scattering a global temperature field and immediately gathering it
back (no stencil step or external heat in between, so the gather still
addresses buffer 0, the buffer the scatter filled) writes back into root's
array exactly the original value at every grid cell. -/
theorem scatter_then_gather_roundtrip (c : Config) (hv : c.valid) (T : ℤ → ℚ)
    (st : MeshState) (step : ℕ) (hstep : step % 2 = 0) (gx gy : ℕ)
    (hx : gx < c.grid0) (hy : gy < c.grid1) :
    gather_temp c step (scatter_temp c T st) T (ti c (gx : ℤ) (gy : ℤ)) =
      T (ti c (gx : ℤ) (gy : ℤ)) := by
  have hL0 := lgs0_pos c hv
  have hL1 := lgs1_pos c hv
  have hq0 : gx / lgs0 c < c.dims0 := by
    rw [Nat.div_lt_iff_lt_mul hL0, grid0_eq c hv]
    exact hx
  have hq1 : gy / lgs1 c < c.dims1 := by
    rw [Nat.div_lt_iff_lt_mul hL1, grid1_eq c hv]
    exact hy
  have e0 : (lgs0 c : ℤ) * ((gx / lgs0 c : ℕ) : ℤ) + ((gx % lgs0 c : ℕ) : ℤ) = (gx : ℤ) := by
    exact_mod_cast congrArg (Nat.cast : ℕ → ℤ) (Nat.div_add_mod gx (lgs0 c))
  have e1 : (lgs1 c : ℤ) * ((gy / lgs1 c : ℕ) : ℤ) + ((gy % lgs1 c : ℕ) : ℤ) = (gy : ℤ) := by
    exact_mod_cast congrArg (Nat.cast : ℕ → ℤ) (Nat.div_add_mod gy (lgs1 c))
  rw [gather_temp_apply c hv step (scatter_temp c T st) T hx hy, bufIdx_eq_zero hstep,
    scatter_temp_at c T st _ (Nat.mod_lt _ hL0) (Nat.mod_lt _ hL1),
    displsF_at c hq0 hq1]
  congr 1
  simp only [ti]
  linear_combination (c.grid0 : ℤ) * e1 + e0

/-- Witness for C2: round trip of the ramp field on the 2×2 mesh over the
4×4 grid, checked at grid cell (3,2). -/
theorem scatter_then_gather_roundtrip_witness :
    gather_temp cfg44 0 (scatter_temp cfg44 (fun i => (i : ℚ)) (fun _ => initWorker))
        (fun i => (i : ℚ)) (ti cfg44 3 2) = (fun i => (i : ℚ)) (ti cfg44 3 2) := by
  have hv : cfg44.valid := by
    refine ⟨?_, ?_, ?_, ?_, ?_, ?_⟩ <;> decide
  exact scatter_then_gather_roundtrip cfg44 hv (fun i => (i : ℚ)) (fun _ => initWorker)
    0 rfl 3 2 (by decide) (by decide)

/-- C7 (amended): the snapshot gather the driver performs after the step-`s`
stencil update reads buffer `s mod 2`, which `ftcs_solver(s)` left unchanged
and `border_exchange(s)` modified only in ghost cells (never gathered); so
root receives exactly the workers' step-`s` *input* interiors — the field
as it stood before this step's update (including this step's external heat)
— not the output of the step-`s` update, which sits in buffer
`(s+1) mod 2`. -/
theorem gather_after_step_assembles_input (c : Config) (hv : c.valid) (step : ℕ)
    (st : MeshState) (T : ℤ → ℚ) (gx gy : ℕ) (hx : gx < c.grid0) (hy : gy < c.grid1) :
    gather_temp c step (ftcs_all c step (border_exchange c step st)) T
        (ti c (gx : ℤ) (gy : ℤ)) =
      (st (((gx / lgs0 c : ℕ) : ℤ), ((gy / lgs1 c : ℕ) : ℤ))).local_temp (bufIdx step)
        (lti c ((gx % lgs0 c : ℕ) : ℤ) ((gy % lgs1 c : ℕ) : ℤ)) := by
  rw [gather_temp_apply c hv step _ T hx hy]
  have h1 : ftcs_all c step (border_exchange c step st)
        (((gx / lgs0 c : ℕ) : ℤ), ((gy / lgs1 c : ℕ) : ℤ)) =
      ftcs_solver c step (border_exchange c step st
        (((gx / lgs0 c : ℕ) : ℤ), ((gy / lgs1 c : ℕ) : ℤ))) := rfl
  rw [h1, ftcs_in_unchanged]
  exact border_exchange_interior c step st _ (Nat.mod_lt _ (lgs0_pos c hv))
    (Nat.mod_lt _ (lgs1_pos c hv))

/-- Witness for C7's amended statement: on the 1×1 mesh with the
index-squared field, the driver-sequence gather returns the pre-update
value 25 at grid cell (0,0). -/
theorem gather_after_step_assembles_input_witness :
    gather_temp cfg11 0 (ftcs_all cfg11 0 (border_exchange cfg11 0 stSquare)) (fun _ => 0)
      (ti cfg11 0 0) = 25 := by
  have hv : cfg11.valid := by
    refine ⟨?_, ?_, ?_, ?_, ?_, ?_⟩ <;> decide
  have hm := gather_after_step_assembles_input cfg11 hv 0 stSquare (fun _ => 0) 0 0
    (by decide) (by decide)
  exact hm.trans
    (by norm_num [stSquare, lti, lgs0, lgs1, cfg11, BORDER, bufIdx, Fin.ext_iff])

/-- C7 refutation of the claim as stated: in the driver sequence at step 0
on a 1×1 mesh holding the index-squared field, the gathered snapshot value
at grid cell (0,0) is 25 — the pre-update value — while the most recent
stencil update produced 59 at that cell (stored in buffer 1). -/
theorem gather_snapshot_is_stale :
    gather_temp cfg11 0 (ftcs_all cfg11 0 (border_exchange cfg11 0 stSquare)) (fun _ => 0)
        (ti cfg11 0 0) = 25 ∧
      (ftcs_all cfg11 0 (border_exchange cfg11 0 stSquare) ((0 : ℤ), (0 : ℤ))).local_temp
        (bufIdx 1) (lti cfg11 0 0) = 59 ∧
      (25 : ℚ) ≠ 59 := by
  have hv : cfg11.valid := by
    refine ⟨?_, ?_, ?_, ?_, ?_, ?_⟩ <;> decide
  refine ⟨?_, ?_, by norm_num⟩
  · have hg := @gather_temp_apply cfg11 hv 0
      (ftcs_all cfg11 0 (border_exchange cfg11 0 stSquare)) (fun _ => 0) 0 0
      (by decide) (by decide)
    have hu : (ftcs_all cfg11 0 (border_exchange cfg11 0 stSquare)
          ((0 : ℤ), (0 : ℤ))).local_temp (bufIdx 0) (lti cfg11 0 0) = 25 := by
      have hi := @border_exchange_interior cfg11 0 stSquare ((0 : ℤ), (0 : ℤ)) 0 0
        (by decide) (by decide)
      have hf : (ftcs_all cfg11 0 (border_exchange cfg11 0 stSquare)
            ((0 : ℤ), (0 : ℤ))).local_temp (bufIdx 0) =
          (border_exchange cfg11 0 stSquare ((0 : ℤ), (0 : ℤ))).local_temp (bufIdx 0) :=
        ftcs_in_unchanged cfg11 0 _
      rw [hf]
      refine hi.trans ?_
      norm_num [stSquare, lti, lgs0, cfg11, BORDER, bufIdx, Fin.ext_iff]
    exact hg.trans hu
  · have hout := @ftcs_out_at cfg11 0 (border_exchange cfg11 0 stSquare ((0 : ℤ), (0 : ℤ)))
      0 0 (by decide) (by decide)
    have h00 := @border_exchange_interior cfg11 0 stSquare ((0 : ℤ), (0 : ℤ)) 0 0
      (by decide) (by decide)
    have h10 := @border_exchange_interior cfg11 0 stSquare ((0 : ℤ), (0 : ℤ)) 1 0
      (by decide) (by decide)
    have h01 := @border_exchange_interior cfg11 0 stSquare ((0 : ℤ), (0 : ℤ)) 0 1
      (by decide) (by decide)
    have hL := @border_exchange_left_absent cfg11 0 stSquare ((0 : ℤ), (0 : ℤ))
      (by decide) 0 (by decide) (by decide)
    have hT := @border_exchange_top_absent cfg11 0 stSquare ((0 : ℤ), (0 : ℤ))
      (by decide) 0 (by decide) (by decide)
    norm_num at hout h00 h10 h01 hL hT
    rw [h00, h10, h01, hL, hT] at hout
    exact hout.trans
      (by norm_num [border_exchange_mat, stSquare, lti, lmi, lgs0, lgs1, cfg11, BORDER,
        bufIdx, Fin.ext_iff])

/-- C4 refutation: in the 8×8 grid / 2×2 mesh scenario with uniform
initial temperature 20.0 (the scatter fills the interiors of buffer 0 after
`init_local_temp` set both buffers to 10.0) and uniform material constant 1,
one full step (halo exchange, then stencil update) with no external heat
leaves worker (0,0)'s interior cell (0,0) of the written buffer at 0.0, not
20.0: its west and north ghost cells still hold the init value 10.0, so the
update computes `20 + (20 + 10 + 20 + 10 - 4*20) = 0`. -/
theorem scenario_step_not_uniform :
    (stScenarioStep ((0 : ℤ), (0 : ℤ))).local_temp (bufIdx 1) (lti cfg22 0 0) = 0 ∧
      (0 : ℚ) ≠ 20 := by
  constructor
  · have hout := @ftcs_out_at cfg22 0
      (border_exchange cfg22 0 stScenario ((0 : ℤ), (0 : ℤ))) 0 0 (by decide) (by decide)
    have h00 : (border_exchange cfg22 0 stScenario ((0 : ℤ), (0 : ℤ))).local_temp
        (bufIdx 0) (lti cfg22 0 0) = 20 := by
      have ha := @border_exchange_interior cfg22 0 stScenario ((0 : ℤ), (0 : ℤ)) 0 0
        (by decide) (by decide)
      have hb := @scatter_temp_at cfg22 (fun _ => (20 : ℚ)) (fun _ => wScenario)
        ((0 : ℤ), (0 : ℤ)) 0 0 (by decide) (by decide)
      exact ha.trans hb
    have h10 : (border_exchange cfg22 0 stScenario ((0 : ℤ), (0 : ℤ))).local_temp
        (bufIdx 0) (lti cfg22 1 0) = 20 := by
      have ha := @border_exchange_interior cfg22 0 stScenario ((0 : ℤ), (0 : ℤ)) 1 0
        (by decide) (by decide)
      have hb := @scatter_temp_at cfg22 (fun _ => (20 : ℚ)) (fun _ => wScenario)
        ((0 : ℤ), (0 : ℤ)) 1 0 (by decide) (by decide)
      exact ha.trans hb
    have h01 : (border_exchange cfg22 0 stScenario ((0 : ℤ), (0 : ℤ))).local_temp
        (bufIdx 0) (lti cfg22 0 1) = 20 := by
      have ha := @border_exchange_interior cfg22 0 stScenario ((0 : ℤ), (0 : ℤ)) 0 1
        (by decide) (by decide)
      have hb := @scatter_temp_at cfg22 (fun _ => (20 : ℚ)) (fun _ => wScenario)
        ((0 : ℤ), (0 : ℤ)) 0 1 (by decide) (by decide)
      exact ha.trans hb
    have hW : (border_exchange cfg22 0 stScenario ((0 : ℤ), (0 : ℤ))).local_temp
        (bufIdx 0) (lti cfg22 (-1) 0) = 10 := by
      have ha := @border_exchange_left_absent cfg22 0 stScenario ((0 : ℤ), (0 : ℤ))
        (by decide) 0 (by decide) (by decide)
      have hb := @scatter_temp_ghost cfg22 (fun _ => (20 : ℚ)) (fun _ => wScenario)
        ((0 : ℤ), (0 : ℤ)) (-1) 0 (by decide) (by decide) (Or.inl rfl)
      have hc := @init_local_temp_at cfg22 initWorker 0 (-1) 0
        (by decide) (by decide) (by decide) (by decide)
      exact ha.trans (hb.trans hc)
    have hN : (border_exchange cfg22 0 stScenario ((0 : ℤ), (0 : ℤ))).local_temp
        (bufIdx 0) (lti cfg22 0 (-1)) = 10 := by
      have ha := @border_exchange_top_absent cfg22 0 stScenario ((0 : ℤ), (0 : ℤ))
        (by decide) 0 (by decide) (by decide)
      have hb := @scatter_temp_ghost cfg22 (fun _ => (20 : ℚ)) (fun _ => wScenario)
        ((0 : ℤ), (0 : ℤ)) 0 (-1) (by decide) (by decide) (Or.inr (Or.inr (Or.inl rfl)))
      have hc := @init_local_temp_at cfg22 initWorker 0 0 (-1)
        (by decide) (by decide) (by decide) (by decide)
      exact ha.trans (hb.trans hc)
    have hmat : (border_exchange cfg22 0 stScenario ((0 : ℤ), (0 : ℤ))).local_material
        (lmi cfg22 0 0) = 1 := rfl
    norm_num at hout h00 h10 h01 hW hN hmat
    rw [h00, h10, h01, hW, hN, hmat] at hout
    exact hout.trans (by norm_num)
  · norm_num

lemma mi_eq (c : Config) (x y : ℤ) : mi c x y = y * (c.grid0 : ℤ) + x := by
  unfold mi BORDER
  ring

/-- C9: `init_temp_material` scales the mercury background by `dt/h*h`
(which, by left-to-right evaluation, is `(dt/h)*h = dt`, not `dt/(h*h)`)
while the copper, tin and aluminium regions are scaled by `dt/(h*h)`; the
two factors differ, so the initialized material array is not uniformly
pre-scaled by `alpha * dt / h²`.  Shown on the program's 256×256 grid at
the mercury cell (0,0) and the copper cell (160,32), for any mesh. -/
theorem init_material_not_uniformly_scaled (d0 d1 : ℕ) :
    (init_temp_material (cfg256 d0 d1)).2 (mi (cfg256 d0 d1) 0 0) =
        MERCURY * (dt / h * h) ∧
      (init_temp_material (cfg256 d0 d1)).2 (mi (cfg256 d0 d1) 160 32) =
        COPPER * (dt / (h * h)) ∧
      MERCURY * (dt / h * h) = MERCURY * dt ∧
      MERCURY * (dt / h * h) ≠ MERCURY * (dt / (h * h)) := by
  have hg0 : ((cfg256 d0 d1).grid0 : ℤ) = 256 := rfl
  have hg1 : ((cfg256 d0 d1).grid1 : ℤ) = 256 := rfl
  refine ⟨?_, ?_, ?_, ?_⟩
  · simp only [init_temp_material]
    have hAlu : ∀ q ∈ prodList
        (intRange (((cfg256 d0 d1).grid0 : ℤ) / 4) (3 * ((cfg256 d0 d1).grid0 : ℤ) / 4 + 1))
        (intRange (((cfg256 d0 d1).grid1 : ℤ) / 2 - ((cfg256 d0 d1).grid1 : ℤ) / 16)
          (((cfg256 d0 d1).grid1 : ℤ) / 2 + ((cfg256 d0 d1).grid1 : ℤ) / 16 + 1)),
        mi (cfg256 d0 d1) q.1 q.2 ≠ mi (cfg256 d0 d1) 0 0 := by
      rintro ⟨a, b⟩ hq
      obtain ⟨ha, hb⟩ := mem_prodList.mp hq
      rw [mem_intRange] at ha hb
      rw [hg0] at ha
      rw [hg1] at hb
      rw [mi_eq, mi_eq, hg0]
      intro he
      omega
    have hTin : ∀ q ∈ prodList
        (intRange (((cfg256 d0 d1).grid0 : ℤ) / 8)
          (((cfg256 d0 d1).grid0 : ℤ) / 2 - ((cfg256 d0 d1).grid0 : ℤ) / 8))
        (intRange (5 * ((cfg256 d0 d1).grid1 : ℤ) / 8) (7 * ((cfg256 d0 d1).grid1 : ℤ) / 8)),
        mi (cfg256 d0 d1) q.1 q.2 ≠ mi (cfg256 d0 d1) 0 0 := by
      rintro ⟨a, b⟩ hq
      obtain ⟨ha, hb⟩ := mem_prodList.mp hq
      rw [mem_intRange] at ha hb
      rw [hg0] at ha
      rw [hg1] at hb
      rw [mi_eq, mi_eq, hg0]
      intro he
      omega
    have hCop : ∀ q ∈ prodList
        (intRange (5 * ((cfg256 d0 d1).grid0 : ℤ) / 8) (7 * ((cfg256 d0 d1).grid0 : ℤ) / 8))
        (intRange (((cfg256 d0 d1).grid1 : ℤ) / 8) (3 * ((cfg256 d0 d1).grid1 : ℤ) / 8)),
        mi (cfg256 d0 d1) q.1 q.2 ≠ mi (cfg256 d0 d1) 0 0 := by
      rintro ⟨a, b⟩ hq
      obtain ⟨ha, hb⟩ := mem_prodList.mp hq
      rw [mem_intRange] at ha hb
      rw [hg0] at ha
      rw [hg1] at hb
      rw [mi_eq, mi_eq, hg0]
      intro he
      omega
    rw [updSeq_miss _ _ _ _ _ hAlu, updSeq_miss _ _ _ _ _ hTin, updSeq_miss _ _ _ _ _ hCop]
    apply updSeq_hit
    · refine ⟨((0 : ℤ), (0 : ℤ)), mem_prodList.mpr
        ⟨mem_intRange.mpr ⟨le_refl 0, ?_⟩, mem_intRange.mpr ⟨le_refl 0, ?_⟩⟩, rfl⟩
      · rw [hg0]
        norm_num
      · rw [hg1]
        norm_num
    · intro _ _ _
      rfl
  · simp only [init_temp_material]
    have hAlu : ∀ q ∈ prodList
        (intRange (((cfg256 d0 d1).grid0 : ℤ) / 4) (3 * ((cfg256 d0 d1).grid0 : ℤ) / 4 + 1))
        (intRange (((cfg256 d0 d1).grid1 : ℤ) / 2 - ((cfg256 d0 d1).grid1 : ℤ) / 16)
          (((cfg256 d0 d1).grid1 : ℤ) / 2 + ((cfg256 d0 d1).grid1 : ℤ) / 16 + 1)),
        mi (cfg256 d0 d1) q.1 q.2 ≠ mi (cfg256 d0 d1) 160 32 := by
      rintro ⟨a, b⟩ hq
      obtain ⟨ha, hb⟩ := mem_prodList.mp hq
      rw [mem_intRange] at ha hb
      rw [hg0] at ha
      rw [hg1] at hb
      rw [mi_eq, mi_eq, hg0]
      intro he
      omega
    have hTin : ∀ q ∈ prodList
        (intRange (((cfg256 d0 d1).grid0 : ℤ) / 8)
          (((cfg256 d0 d1).grid0 : ℤ) / 2 - ((cfg256 d0 d1).grid0 : ℤ) / 8))
        (intRange (5 * ((cfg256 d0 d1).grid1 : ℤ) / 8) (7 * ((cfg256 d0 d1).grid1 : ℤ) / 8)),
        mi (cfg256 d0 d1) q.1 q.2 ≠ mi (cfg256 d0 d1) 160 32 := by
      rintro ⟨a, b⟩ hq
      obtain ⟨ha, hb⟩ := mem_prodList.mp hq
      rw [mem_intRange] at ha hb
      rw [hg0] at ha
      rw [hg1] at hb
      rw [mi_eq, mi_eq, hg0]
      intro he
      omega
    rw [updSeq_miss _ _ _ _ _ hAlu, updSeq_miss _ _ _ _ _ hTin]
    apply updSeq_hit
    · refine ⟨((160 : ℤ), (32 : ℤ)), mem_prodList.mpr
        ⟨mem_intRange.mpr ⟨?_, ?_⟩, mem_intRange.mpr ⟨?_, ?_⟩⟩, rfl⟩
      · rw [hg0]
        norm_num
      · rw [hg0]
        norm_num
      · rw [hg1]
        norm_num
      · rw [hg1]
        norm_num
    · intro _ _ _
      rfl
  · norm_num [MERCURY, dt, h]
  · norm_num [MERCURY, dt, h]

/-- Witness for C9 at the concrete 16×16 mesh the 256-worker run would use. -/
theorem init_material_not_uniformly_scaled_witness :
    (init_temp_material (cfg256 16 16)).2 (mi (cfg256 16 16) 0 0) =
      MERCURY * (dt / h * h) :=
  (init_material_not_uniformly_scaled 16 16).1

end Heat
